import Mathlib

/-!
Verification of the incremental-sync engine (port-labs/incremental-sync).

Shallow embedding of the Python sources:
  * `src/integrations/azure_incremental/src/services/resources.py`
  * `src/integrations/azure_incremental/src/services/resource_containers.py`
  * `src/integrations/azure_incremental/src/settings.py`
  * `src/integrations/azure_incremental/src/clients/port.py`
  * `src/azure/src/clients/azure_client.py`
  * `src/azure/src/main.py`
  * `src/azure/src/utils.py`
and, for the token-bucket rate limiter whose implementation module is not in
the source tree (only its unit tests are), a model taken from the
specification and cross-checked against those tests.

Mutation is made explicit by state passing, time by an explicit `now`
argument, and the HTTP / query collaborators by argument lists describing
the responses they would return on successive calls.
-/

/-! ## Token bucket rate limiter (spec section 4.1) -/

/-- State of the token-bucket limiter (`capacity`, `refill_rate`, `tokens`,
`last_refill_time`), mirroring the fields asserted by
`tests/unit/test_rate_limiter.py`.  Python floats are modelled by `ℚ`. -/
structure TokenBucketRateLimiter where
  capacity : ℚ
  refill_rate : ℚ
  tokens : ℚ
  last_refill_time : ℚ
  deriving Repr, DecidableEq

/-- Modelled from the spec: the module `src/rate_limiter.py` is absent from
the source tree (only `tests/unit/test_rate_limiter.py` references it).
Spec section 4.1: refill `tokens = min(capacity, tokens + elapsed * refillRatePerSecond)`
and set `lastRefillTimestamp = now`; then if `tokens >= n`, subtract `n` and
admit, otherwise leave the (refilled) tokens unchanged and reject.  The
current time is an explicit argument. -/
def TokenBucketRateLimiter.consume (s : TokenBucketRateLimiter) (n : Int) (now : ℚ) :
    Bool × TokenBucketRateLimiter :=
  let elapsed := now - s.last_refill_time
  let refilled := min s.capacity (s.tokens + elapsed * s.refill_rate)
  if (n : ℚ) ≤ refilled then
    (true, { s with tokens := refilled - (n : ℚ), last_refill_time := now })
  else
    (false, { s with tokens := refilled, last_refill_time := now })

/-- A freshly constructed limiter: full bucket, construction time recorded. -/
def TokenBucketRateLimiter.mk0 (capacity refill_rate t0 : ℚ) : TokenBucketRateLimiter :=
  { capacity := capacity, refill_rate := refill_rate, tokens := capacity,
    last_refill_time := t0 }

/-- Run a sequence of `consume` calls; each call is a pair of the requested
token count and the time at which the call happens. -/
def TokenBucketRateLimiter.runConsume (s : TokenBucketRateLimiter)
    (calls : List (Int × ℚ)) : TokenBucketRateLimiter :=
  calls.foldl (fun st c => (st.consume c.1 c.2).2) s

/-- Call times are nondecreasing, starting no earlier than `t`. -/
def ChronFrom (t : ℚ) : List (Int × ℚ) → Prop
  | [] => True
  | c :: rest => t ≤ c.2 ∧ ChronFrom c.2 rest

theorem consume_capacity_eq (s : TokenBucketRateLimiter) (n : Int) (now : ℚ) :
    ((s.consume n now).2).capacity = s.capacity := by
  unfold TokenBucketRateLimiter.consume
  dsimp only
  split <;> rfl

theorem consume_rate_eq (s : TokenBucketRateLimiter) (n : Int) (now : ℚ) :
    ((s.consume n now).2).refill_rate = s.refill_rate := by
  unfold TokenBucketRateLimiter.consume
  dsimp only
  split <;> rfl

theorem consume_time_eq (s : TokenBucketRateLimiter) (n : Int) (now : ℚ) :
    ((s.consume n now).2).last_refill_time = now := by
  unfold TokenBucketRateLimiter.consume
  dsimp only
  split <;> rfl

theorem consume_step_bounds (s : TokenBucketRateLimiter) (n : Int) (now : ℚ)
    (hrate : 0 ≤ s.refill_rate) (hlo : 0 ≤ s.tokens) (hhi : s.tokens ≤ s.capacity)
    (hn : 0 ≤ n) (ht : s.last_refill_time ≤ now) :
    0 ≤ ((s.consume n now).2).tokens ∧ ((s.consume n now).2).tokens ≤ s.capacity := by
  unfold TokenBucketRateLimiter.consume
  dsimp only
  have hcap : 0 ≤ s.capacity := le_trans hlo hhi
  have helapsed : 0 ≤ now - s.last_refill_time := by linarith
  have hx : 0 ≤ s.tokens + (now - s.last_refill_time) * s.refill_rate := by positivity
  have hmin_lo : (0 : ℚ) ≤ min s.capacity (s.tokens + (now - s.last_refill_time) * s.refill_rate) :=
    le_min hcap hx
  have hmin_hi : min s.capacity (s.tokens + (now - s.last_refill_time) * s.refill_rate) ≤ s.capacity :=
    min_le_left _ _
  have hn' : (0 : ℚ) ≤ (n : ℚ) := by exact_mod_cast hn
  split
  case isTrue h =>
    constructor
    · dsimp only
      linarith
    · dsimp only
      linarith
  case isFalse h =>
    exact ⟨hmin_lo, hmin_hi⟩

/-- C6 (amended): starting from any state whose token count lies in
`[0, capacity]`, with a nonnegative refill rate, every sequence of
`consume(n)` calls with nonnegative `n` and nondecreasing call times keeps
the token count within `[0, capacity]`. -/
theorem runConsume_tokens_bounds (s : TokenBucketRateLimiter) (calls : List (Int × ℚ))
    (hrate : 0 ≤ s.refill_rate) (hlo : 0 ≤ s.tokens) (hhi : s.tokens ≤ s.capacity)
    (hn : ∀ c ∈ calls, 0 ≤ c.1) (ht : ChronFrom s.last_refill_time calls) :
    0 ≤ (s.runConsume calls).tokens ∧ (s.runConsume calls).tokens ≤ s.capacity := by
  induction calls generalizing s with
  | nil => exact ⟨hlo, hhi⟩
  | cons c rest ih =>
    have hstep := consume_step_bounds s c.1 c.2 hrate hlo hhi
      (hn c (List.mem_cons_self c rest)) ht.1
    have hcap := consume_capacity_eq s c.1 c.2
    have hrateq := consume_rate_eq s c.1 c.2
    have htimeq := consume_time_eq s c.1 c.2
    have := ih ((s.consume c.1 c.2).2)
      (by rw [hrateq]; exact hrate)
      hstep.1
      (by rw [hcap]; exact hstep.2)
      (fun d hd => hn d (List.mem_cons_of_mem c hd))
      (by rw [htimeq]; exact ht.2)
    have hfold : s.runConsume (c :: rest) = ((s.consume c.1 c.2).2).runConsume rest := rfl
    rw [hfold]
    exact ⟨this.1, by rw [← hcap]; exact this.2⟩

/-- Witness for `runConsume_tokens_bounds` at a fresh limiter of capacity 10,
refill rate 5, with two admissible calls. -/
theorem runConsume_tokens_bounds_witness :
    0 ≤ ((TokenBucketRateLimiter.mk0 10 5 1).runConsume [(5, 1), (7, 2)]).tokens ∧
      ((TokenBucketRateLimiter.mk0 10 5 1).runConsume [(5, 1), (7, 2)]).tokens ≤
        (TokenBucketRateLimiter.mk0 10 5 1).capacity :=
  runConsume_tokens_bounds (TokenBucketRateLimiter.mk0 10 5 1) [(5, 1), (7, 2)]
    (by norm_num [TokenBucketRateLimiter.mk0])
    (by norm_num [TokenBucketRateLimiter.mk0])
    (by norm_num [TokenBucketRateLimiter.mk0])
    (by intro c hc; fin_cases hc <;> norm_num)
    (by norm_num [TokenBucketRateLimiter.mk0, ChronFrom])

/-- C6 counterexample: on a fresh limiter of capacity 10 (refill rate 5,
created at time 1), `consume(-5)` at time 1 is admitted and leaves
`tokens = 15 > capacity = 10`, exactly as
`test_consume_negative_tokens` asserts.  The claimed invariant
`tokens ≤ capacity` therefore fails for negative `n`. -/
theorem consume_negative_exceeds_capacity :
    (((TokenBucketRateLimiter.mk0 10 5 1).consume (-5) 1).2).tokens = 15 ∧
      ((TokenBucketRateLimiter.mk0 10 5 1).capacity < 15) := by
  constructor
  · norm_num [TokenBucketRateLimiter.mk0, TokenBucketRateLimiter.consume]
  · norm_num [TokenBucketRateLimiter.mk0]

/-! ## Chunking utility (`src/azure/src/utils.py`, `turn_sequence_to_chunks`) -/

/-- List emptiness is decidable without decidable equality on elements
(Python truthiness of a list slice). -/
instance decNilEq {α : Type _} (l : List α) : Decidable (l = []) :=
  match l with
  | [] => Decidable.isTrue rfl
  | _ :: _ => Decidable.isFalse (by simp)

/-- The `while start <= len(sequence) and sequence[start:end]` loop of
`turn_sequence_to_chunks`; `sequence[start:end]` with `end = start + chunk_size`
is `(seq.drop start).take chunk_size`. -/
def chunksLoop {T : Type} (seq : List T) (chunk_size : ℕ) (start : ℕ) : List (List T) :=
  if h : start ≤ seq.length ∧ (seq.drop start).take chunk_size ≠ [] then
    (seq.drop start).take chunk_size :: chunksLoop seq chunk_size (start + chunk_size)
  else []
  termination_by seq.length + 1 - start
  decreasing_by
    have h1 : chunk_size ≠ 0 := by
      intro hc
      rw [hc] at h
      simp at h
    have h2 : start < seq.length := by
      rcases h with ⟨hle, hne⟩
      by_contra hcon
      push_neg at hcon
      rw [List.drop_eq_nil_of_le hcon] at hne
      simp at hne
    omega

/-- From `src/azure/src/utils.py`: the whole sequence is yielded as a single
chunk when `chunk_size >= len(sequence)`; otherwise the slicing loop runs.
Nonnegative chunk sizes are modelled. -/
def turn_sequence_to_chunks {T : Type} (seq : List T) (chunk_size : ℕ) : List (List T) :=
  if seq.length ≤ chunk_size then [seq]
  else chunksLoop seq chunk_size 0

theorem chunksLoop_flatten {T : Type} (seq : List T) (C : ℕ) (hC : 1 ≤ C) (start : ℕ) :
    (chunksLoop seq C start).flatten = seq.drop start := by
  induction start using chunksLoop.induct seq C with
  | case1 x hx ih =>
    rw [chunksLoop, dif_pos hx, List.flatten_cons, ih, ← List.drop_drop,
      List.take_append_drop]
  | case2 x hx =>
    rw [chunksLoop, dif_neg hx]
    push_neg at hx
    by_cases hle : x ≤ seq.length
    · rcases List.take_eq_nil_iff.mp (hx hle) with h0 | hnil
      · omega
      · simp [hnil]
    · push_neg at hle
      simp [List.drop_eq_nil_iff.mpr (le_of_lt hle)]

theorem chunksLoop_length {T : Type} (seq : List T) (C : ℕ) (hC : 1 ≤ C) (start : ℕ) :
    (chunksLoop seq C start).length = (seq.length - start + C - 1) / C := by
  induction start using chunksLoop.induct seq C with
  | case1 x hx ih =>
    rw [chunksLoop, dif_pos hx, List.length_cons, ih]
    have hxlen : x < seq.length := by
      rcases hx with ⟨h1, h2⟩
      by_contra hcon
      push_neg at hcon
      rw [List.drop_eq_nil_of_le hcon] at h2
      simp at h2
    have e1 : seq.length - (x + C) = seq.length - x - C := by omega
    have e2 : seq.length - x + C - 1 = (seq.length - x - 1) + C := by omega
    rw [e1, e2, Nat.add_div_right _ (by omega : 0 < C)]
    by_cases hmc : C ≤ seq.length - x
    · have e3 : seq.length - x - C + C - 1 = seq.length - x - 1 := by omega
      rw [e3]
    · have e3 : seq.length - x - C + C - 1 = C - 1 := by omega
      rw [e3, Nat.div_eq_of_lt (by omega), Nat.div_eq_of_lt (by omega)]
  | case2 x hx =>
    rw [chunksLoop, dif_neg hx]
    push_neg at hx
    have hxe : seq.length ≤ x := by
      by_contra hcon
      push_neg at hcon
      rcases List.take_eq_nil_iff.mp (hx (by omega)) with h0 | hnil
      · omega
      · rw [List.drop_eq_nil_iff] at hnil
        omega
    have e : (seq.length - x + C - 1) / C = 0 := Nat.div_eq_of_lt (by omega)
    simp [e]

theorem chunksLoop_sizes {T : Type} (seq : List T) (C : ℕ) (start : ℕ) :
    ∀ c ∈ (chunksLoop seq C start).dropLast, c.length = C := by
  induction start using chunksLoop.induct seq C with
  | case1 x hx ih =>
    rw [chunksLoop, dif_pos hx]
    cases hrest : chunksLoop seq C (x + C) with
    | nil => simp
    | cons r rs =>
      rw [List.dropLast_cons₂]
      intro c hc
      rcases List.mem_cons.mp hc with hcs | hcm
      · subst hcs
        have hguard : x + C ≤ seq.length ∧ (seq.drop (x + C)).take C ≠ [] := by
          by_contra hg
          rw [chunksLoop, dif_neg hg] at hrest
          exact List.noConfusion hrest
        have hlt : x + C < seq.length := by
          have h2 : seq.drop (x + C) ≠ [] := by
            intro hnil
            exact hguard.2 (by rw [hnil, List.take_nil])
          have h3 : ¬ seq.length ≤ x + C := fun hle => h2 (List.drop_eq_nil_of_le hle)
          omega
        simp only [List.length_take, List.length_drop]
        omega
      · exact ih c (by rw [hrest]; exact hcm)
  | case2 x hx =>
    rw [chunksLoop, dif_neg hx]
    simp

/-- C8 (amended): for every nonempty sequence and every chunk size `C ≥ 1`,
`turn_sequence_to_chunks` yields `ceil(L/C)` chunks, all of size `C` except
possibly the last, whose concatenation reproduces the original sequence in
order; for a sequence shorter than `C` it yields exactly one chunk containing
the whole sequence.  (The original claim, quantified over all sequences and
chunk sizes, fails for the empty sequence and for chunk size 0; see
`turn_sequence_to_chunks_cx`.) -/
theorem turn_sequence_to_chunks_spec {T : Type} (seq : List T) (C : ℕ)
    (hL : 1 ≤ seq.length) (hC : 1 ≤ C) :
    (turn_sequence_to_chunks seq C).length = (seq.length + C - 1) / C ∧
      (∀ c ∈ (turn_sequence_to_chunks seq C).dropLast, c.length = C) ∧
      (turn_sequence_to_chunks seq C).flatten = seq ∧
      (seq.length < C → turn_sequence_to_chunks seq C = [seq]) := by
  unfold turn_sequence_to_chunks
  by_cases hge : seq.length ≤ C
  · rw [if_pos hge]
    refine ⟨?_, by simp, by simp, fun h => rfl⟩
    have e : seq.length + C - 1 = (seq.length - 1) + C := by omega
    rw [e, Nat.add_div_right _ (by omega : 0 < C), Nat.div_eq_of_lt (by omega)]
    rfl
  · rw [if_neg hge]
    push_neg at hge
    refine ⟨?_, chunksLoop_sizes seq C 0, ?_, fun h => absurd h (by omega)⟩
    · simpa using chunksLoop_length seq C hC 0
    · rw [chunksLoop_flatten seq C hC 0]
      exact List.drop_zero seq

/-- Witness for `turn_sequence_to_chunks_spec` on the 5-element sequence
`[1, 2, 3, 4, 5]` with chunk size 2 (3 chunks: `[1,2]`, `[3,4]`, `[5]`). -/
theorem turn_sequence_to_chunks_spec_witness :
    (turn_sequence_to_chunks [1, 2, 3, 4, 5] 2).length = (([1, 2, 3, 4, 5] : List ℕ).length + 2 - 1) / 2 ∧
      (∀ c ∈ (turn_sequence_to_chunks [1, 2, 3, 4, 5] 2).dropLast, c.length = 2) ∧
      (turn_sequence_to_chunks [1, 2, 3, 4, 5] 2).flatten = [1, 2, 3, 4, 5] ∧
      (([1, 2, 3, 4, 5] : List ℕ).length < 2 → turn_sequence_to_chunks [1, 2, 3, 4, 5] 2 = [[1, 2, 3, 4, 5]]) :=
  turn_sequence_to_chunks_spec [1, 2, 3, 4, 5] 2 (by norm_num) (by norm_num)

/-- C8 counterexample: the claim as stated fails on the code.  The empty
sequence with chunk size 2 yields one (empty) chunk, not `ceil(0/2) = 0`
chunks (asserted by `test_turn_sequence_to_chunks_empty_sequence`), and chunk
size 0 on `[1]` yields no chunks at all (asserted by
`test_turn_sequence_to_chunks_chunk_size_zero`), so concatenation does not
reproduce the sequence. -/
theorem turn_sequence_to_chunks_cx :
    (turn_sequence_to_chunks ([] : List ℕ) 2).length ≠ (([] : List ℕ).length + 2 - 1) / 2 ∧
      (turn_sequence_to_chunks ([1] : List ℕ) 0).flatten ≠ [1] := by
  constructor
  · simp [turn_sequence_to_chunks]
  · have h : chunksLoop ([1] : List ℕ) 0 0 = [] := by
      rw [chunksLoop]
      norm_num
    simp [turn_sequence_to_chunks, h]

/-! ## Change classification (`src/integrations/azure_incremental/src/services/resources.py`)
and resource-group fan-out (`src/azure/src/main.py`) -/

/-- A row returned by the resource queries, with the fields the sync services
access (`AzureResourceQueryData` in `src/azure/src/utils.py`). -/
structure AzureResourceQueryData where
  subscriptionId : String
  resourceGroup : String
  resourceId : String
  name : String
  type : String
  location : String
  changeType : String
  changeTime : String
  deriving Repr, DecidableEq

/-- One webhook delivery task: the `data`, `id`, `operation` and `type`
arguments of a `PortClient.send_webhook_data` call. -/
structure WebhookTask where
  data : AzureResourceQueryData
  id : String
  operation : String
  type : String
  deriving Repr, DecidableEq

/-- From `Resources.sync_incremental`: for each item of a page, a task with
id `item["resourceId"]` and operation
`"upsert" if item["changeType"] != "Delete" else "delete"`. -/
def sync_incremental_tasks (items : List AzureResourceQueryData) : List WebhookTask :=
  items.map (fun item =>
    { data := item
      id := item.resourceId
      operation := if item.changeType ≠ "Delete" then "upsert" else "delete"
      type := "resource" })

/-- From `Resources.sync_full`: every item of a page yields an upsert task. -/
def sync_full_tasks (items : List AzureResourceQueryData) : List WebhookTask :=
  items.map (fun item =>
    { data := item, id := item.resourceId, operation := "upsert", type := "resource" })

/-- C1: in incremental mode each record's task has operation `"delete"` iff
the record's `changeType` equals `"Delete"` (any other value yields an
`"upsert"` task), and the task's id is the record's `resourceId`; in
full-sync mode every record yields an `"upsert"` task. -/
theorem sync_tasks_classification (items : List AzureResourceQueryData) :
    List.Forall₂
      (fun item t =>
        (t.operation = "delete" ↔ item.changeType = "Delete") ∧
          (t.operation = "delete" ∨ t.operation = "upsert") ∧
          t.id = item.resourceId)
      items (sync_incremental_tasks items) ∧
      ∀ t ∈ sync_full_tasks items, t.operation = "upsert" := by
  constructor
  · induction items with
    | nil => exact List.Forall₂.nil
    | cons a l ih =>
      rw [sync_incremental_tasks, List.map_cons]
      refine List.Forall₂.cons ?_ ih
      by_cases hd : a.changeType = "Delete" <;> simp [hd]
  · intro t ht
    rw [sync_full_tasks] at ht
    obtain ⟨a, _, rfl⟩ := List.mem_map.mp ht
    rfl

/-- The resource-group entity built by
`PortClient.construct_resource_group_entity` in `src/azure/src/clients/port.py`. -/
structure ResourceGroupEntity where
  identifier : String
  title : String
  subscription : String
  deriving Repr, DecidableEq

def construct_resource_group_entity (name subscription_id : String) : ResourceGroupEntity :=
  { identifier := name, title := name, subscription := subscription_id }

/-- Loop body of `process_change_items` in `src/azure/src/main.py`: append the
`(resourceGroup, subscriptionId)` pair of every item, and sort the item into
the delete or upsert task list by its `changeType`. -/
def processChangeStep
    (acc : List (String × String) × List AzureResourceQueryData × List AzureResourceQueryData)
    (item : AzureResourceQueryData) :
    List (String × String) × List AzureResourceQueryData × List AzureResourceQueryData :=
  let r_groups := acc.1 ++ [(item.resourceGroup, item.subscriptionId)]
  if item.changeType = "Delete" then (r_groups, acc.2.1 ++ [item], acc.2.2)
  else (r_groups, acc.2.1, acc.2.2 ++ [item])

/-- From `process_change_items` in `src/azure/src/main.py`: returns the
accumulated `(resourceGroup, subscriptionId)` pairs and the delete/upsert
item lists for one page. -/
def process_change_items (items : List AzureResourceQueryData) :
    List (String × String) × List AzureResourceQueryData × List AzureResourceQueryData :=
  items.foldl processChangeStep ([], [], [])

/-- From `upsert_resources_groups` in `src/azure/src/main.py`: one
resource-group upsert task per element of `r_groups`. -/
def upsert_resources_groups (r_groups : List (String × String)) : List ResourceGroupEntity :=
  r_groups.map (fun rg => construct_resource_group_entity rg.1 rg.2)

theorem processChangeStep_fst (acc : List (String × String) ×
    List AzureResourceQueryData × List AzureResourceQueryData)
    (item : AzureResourceQueryData) :
    (processChangeStep acc item).1 = acc.1 ++ [(item.resourceGroup, item.subscriptionId)] := by
  unfold processChangeStep
  dsimp only
  split <;> rfl

theorem process_change_items_fold (items : List AzureResourceQueryData)
    (acc : List (String × String) × List AzureResourceQueryData × List AzureResourceQueryData) :
    (items.foldl processChangeStep acc).1 =
      acc.1 ++ items.map (fun item => (item.resourceGroup, item.subscriptionId)) := by
  induction items generalizing acc with
  | nil => simp
  | cons a l ih =>
    rw [List.foldl_cons, ih, processChangeStep_fst, List.map_cons]
    simp

/-- C5 (amended): the derived resource-group upsert tasks of a page are in
one-to-one correspondence with the page's records, one task per record in
page order, built from that record's `(resourceGroup, subscriptionId)` pair;
duplicate pairs within the page are kept, not removed (see
`process_change_items_cx`). -/
theorem process_change_items_resource_groups (items : List AzureResourceQueryData) :
    (process_change_items items).1 =
        items.map (fun item => (item.resourceGroup, item.subscriptionId)) ∧
      upsert_resources_groups (process_change_items items).1 =
        items.map (fun item => construct_resource_group_entity item.resourceGroup item.subscriptionId) ∧
      (upsert_resources_groups (process_change_items items).1).length = items.length := by
  have h1 : (process_change_items items).1 =
      items.map (fun item => (item.resourceGroup, item.subscriptionId)) := by
    rw [process_change_items, process_change_items_fold]
    simp
  refine ⟨h1, ?_, ?_⟩
  · rw [h1]
    simp [upsert_resources_groups]
  · rw [h1]
    simp [upsert_resources_groups]

/-- C5 counterexample: a page of two records sharing the same
`(resourceGroup, subscriptionId)` pair yields two resource-group upsert
tasks, not one task per distinct pair — `process_change_items` performs no
deduplication. -/
theorem process_change_items_cx :
    (upsert_resources_groups (process_change_items
        [{ subscriptionId := "s1", resourceGroup := "g1", resourceId := "id-a",
           name := "a", type := "t", location := "l",
           changeType := "Create", changeTime := "0" },
         { subscriptionId := "s1", resourceGroup := "g1", resourceId := "id-b",
           name := "b", type := "t", location := "l",
           changeType := "Update", changeTime := "1" }]).1).length ≠
      ((process_change_items
        [{ subscriptionId := "s1", resourceGroup := "g1", resourceId := "id-a",
           name := "a", type := "t", location := "l",
           changeType := "Create", changeTime := "0" },
         { subscriptionId := "s1", resourceGroup := "g1", resourceId := "id-b",
           name := "b", type := "t", location := "l",
           changeType := "Update", changeTime := "1" }]).1).dedup.length := by
  decide

/-! ## Tag filter compiler
(`src/integrations/azure_incremental/src/services/resource_containers.py`) -/

/-- Include/exclude tag filters (`ResourceGroupTagFilters` in
`src/integrations/azure_incremental/src/settings.py`); Python dicts are
modelled as association lists in iteration order. -/
structure ResourceGroupTagFilters where
  «include» : List (String × String)
  «exclude» : List (String × String)
  deriving Repr, DecidableEq

/-- `ResourceGroupTagFilters.has_filters`: truthiness of either dict. -/
def ResourceGroupTagFilters.has_filters (f : ResourceGroupTagFilters) : Bool :=
  !f.«include».isEmpty || !f.«exclude».isEmpty

/-- Python `s.replace` doubling every single-quote character. -/
def escapeQuotes (s : String) : String :=
  String.join (s.data.map (fun c => if c = '\'' then "''" else String.singleton c))

/-- From `build_rg_tag_filter_clause_for_containers` in
`src/integrations/azure_incremental/src/services/resource_containers.py`. -/
def build_rg_tag_filter_clause_for_containers (filters : ResourceGroupTagFilters) : String :=
  if !filters.has_filters then ""
  else
    let conditions : List String :=
      (if !filters.«include».isEmpty then
        let include_conditions := filters.«include».map (fun kv =>
          "tostring(tags['" ++ escapeQuotes kv.1 ++ "']) =~ '" ++ escapeQuotes kv.2 ++ "'")
        if !include_conditions.isEmpty then
          ["(" ++ String.intercalate (" and ") include_conditions ++ ")"]
        else []
      else []) ++
      (if !filters.«exclude».isEmpty then
        let exclude_conditions := filters.«exclude».map (fun kv =>
          "tostring(tags['" ++ escapeQuotes kv.1 ++ "']) =~ '" ++ escapeQuotes kv.2 ++ "'")
        if !exclude_conditions.isEmpty then
          ["not (" ++ String.intercalate (" or ") exclude_conditions ++ ")"]
        else []
      else [])
    if conditions.isEmpty then ""
    else "| where " ++ String.intercalate (" and ") conditions

/-- The claim's description of the compiler (spec section 4.2), written from
its words: empty maps give the empty string; otherwise each key/value pair
becomes a case-insensitive equality test on a per-tag lookup with single
quotes doubled, the include conditions are joined with AND into one group,
the exclude conditions are joined with OR into one group wrapped in a
logical negation, the two groups (when both present) are joined with AND,
and the result is prefixed with the query language's where keyword. -/
def compileTagFilterSetSpec (filters : ResourceGroupTagFilters) : String :=
  if filters.«include».isEmpty && filters.«exclude».isEmpty then ""
  else
    let test := fun (kv : String × String) =>
      "tostring(tags['" ++ escapeQuotes kv.1 ++ "']) =~ '" ++ escapeQuotes kv.2 ++ "'"
    let includeGroup : List String :=
      if filters.«include».isEmpty then []
      else ["(" ++ String.intercalate (" and ") (filters.«include».map test) ++ ")"]
    let excludeGroup : List String :=
      if filters.«exclude».isEmpty then []
      else ["not (" ++ String.intercalate (" or ") (filters.«exclude».map test) ++ ")"]
    "| where " ++ String.intercalate (" and ") (includeGroup ++ excludeGroup)

/-- C4: the tag filter compiler implements exactly the claimed shape: empty
string for empty filters, otherwise a where-prefixed fragment with the
include conditions ANDed into one group, the exclude conditions ORed into
one negated group, and the two groups ANDed. -/
theorem build_rg_tag_filter_clause_for_containers_spec (filters : ResourceGroupTagFilters) :
    build_rg_tag_filter_clause_for_containers filters = compileTagFilterSetSpec filters := by
  rcases filters with ⟨inc, exc⟩
  cases inc <;> cases exc <;>
    simp [build_rg_tag_filter_clause_for_containers, compileTagFilterSetSpec,
      ResourceGroupTagFilters.has_filters]

/-! ## Tag filter configuration parsing
(`src/integrations/azure_incremental/src/settings.py`) -/

/-- A parsed JSON value as produced by Python's `json.loads`; JSON `null`
becomes Python `None`. -/
inductive JsonValue where
  | null
  | bool (b : Bool)
  | num (q : ℚ)
  | str (s : String)
  | arr (elems : List JsonValue)
  | obj (fields : List (String × JsonValue))

/-- Python `data.get(key)` on a dict produced by `json.loads`: `none` both
when the key is absent and when its value is JSON `null` (both are `None`
in Python). -/
def pyDictGet (fields : List (String × JsonValue)) (key : String) : Option JsonValue :=
  match fields.lookup key with
  | some JsonValue.null => none
  | v => v

/-- `_AppSettings._parse_json`: the `jsonLoads` oracle result is `none` on a
`json.JSONDecodeError`; a non-dict result is rejected with a warning. -/
def _parse_json (loaded : Option JsonValue) : Option (List (String × JsonValue)) :=
  match loaded with
  | some (JsonValue.obj fields) => some fields
  | _ => none

/-- `all(isinstance(k, str) and isinstance(v, str) for k, v in filters.items())`
(JSON object keys are always strings). -/
def isStringToStringMap (fields : List (String × JsonValue)) : Bool :=
  fields.all (fun kv => match kv.2 with | JsonValue.str _ => true | _ => false)

/-- The per-key check of `_AppSettings._is_valid_filter_structure`. -/
def validFilterField (data : List (String × JsonValue)) (key : String) : Bool :=
  match pyDictGet data key with
  | none => true
  | some (JsonValue.obj m) => isStringToStringMap m
  | some _ => false

/-- `_AppSettings._is_valid_filter_structure`. -/
def _is_valid_filter_structure (data : List (String × JsonValue)) : Bool :=
  validFilterField data ("include") && validFilterField data ("exclude")

/-- The include/exclude value handed to the `ResourceGroupTagFilters`
constructor: `parsed.get(key, {})` with a `None` value coerced to `{}` by
the constructor's `include or {}`; values are strings whenever
`_is_valid_filter_structure` accepted the object. -/
def filterFieldMap (data : List (String × JsonValue)) (key : String) :
    List (String × String) :=
  match pyDictGet data key with
  | some (JsonValue.obj m) =>
    m.filterMap (fun kv => match kv.2 with
      | JsonValue.str s => some (kv.1, s)
      | _ => none)
  | _ => []

/-- `_AppSettings.get_resource_group_tag_filters`, with Python's `json.loads`
abstracted as an oracle `jsonLoads` (`none` models a parse error). -/
def get_resource_group_tag_filters (RESOURCE_GROUP_TAG_FILTERS : Option String)
    (jsonLoads : String → Option JsonValue) : ResourceGroupTagFilters :=
  match RESOURCE_GROUP_TAG_FILTERS with
  | none => ⟨[], []⟩
  | some raw =>
    if raw = "" then ⟨[], []⟩
    else
      match _parse_json (jsonLoads raw) with
      | none => ⟨[], []⟩
      | some parsed =>
        if _is_valid_filter_structure parsed then
          ⟨filterFieldMap parsed ("include"), filterFieldMap parsed ("exclude")⟩
        else ⟨[], []⟩

/-- A field of the parsed object read as a string map, following the claim's
words refined by Python's null handling: an absent (or JSON null) field is
the empty map, a string-to-string object is kept, anything else is a
structure error. -/
def stringMapField (fields : List (String × JsonValue)) (key : String) :
    Option (List (String × String)) :=
  match pyDictGet fields key with
  | none => some []
  | some (JsonValue.obj m) =>
    if isStringToStringMap m then
      some (m.filterMap (fun kv => match kv.2 with
        | JsonValue.str s => some (kv.1, s)
        | _ => none))
    else none
  | some _ => none

/-- The claim's description of the parse (amended): invalid JSON, a
non-object, or a present non-null include/exclude field that is not a
string-to-string mapping give the empty filter set; otherwise exactly the
given include and exclude maps are returned.  A JSON null field is treated
like an absent field. -/
def tagFiltersParseSpec (raw : String) (jsonLoads : String → Option JsonValue) :
    ResourceGroupTagFilters :=
  match jsonLoads raw with
  | some (JsonValue.obj fields) =>
    match stringMapField fields ("include"), stringMapField fields ("exclude") with
    | some inc, some exc => ⟨inc, exc⟩
    | _, _ => ⟨[], []⟩
  | _ => ⟨[], []⟩

theorem stringMapField_of_valid (data : List (String × JsonValue)) (key : String)
    (h : validFilterField data key = true) :
    stringMapField data key = some (filterFieldMap data key) := by
  unfold validFilterField at h
  unfold stringMapField filterFieldMap
  cases hg : pyDictGet data key with
  | none => rfl
  | some v =>
    cases v <;> rw [hg] at h <;> simp_all

theorem stringMapField_of_not_valid (data : List (String × JsonValue)) (key : String)
    (h : validFilterField data key = false) :
    stringMapField data key = none := by
  unfold validFilterField at h
  unfold stringMapField
  cases hg : pyDictGet data key with
  | none => rw [hg] at h; simp at h
  | some v =>
    cases v <;> rw [hg] at h <;> simp_all

/-- C9 (amended): with `json.loads` abstracted as an oracle, the tag filter
configuration parser returns the empty filter set for invalid JSON, a
non-object value, or a present non-null include/exclude field that is not a
string-to-string mapping, without raising (the function is total); for a
well-formed value it returns exactly the given include and exclude maps.
A JSON null field is treated like an absent one (see
`get_resource_group_tag_filters_cx`). -/
theorem get_resource_group_tag_filters_spec (raw : String)
    (jsonLoads : String → Option JsonValue) (hempty : jsonLoads "" = none) :
    get_resource_group_tag_filters (some raw) jsonLoads = tagFiltersParseSpec raw jsonLoads := by
  unfold get_resource_group_tag_filters tagFiltersParseSpec
  dsimp only
  by_cases hr : raw = ""
  · subst hr
    rw [hempty]
    simp
  · rw [if_neg hr]
    cases hj : jsonLoads raw with
    | none => rfl
    | some v =>
      cases v with
      | obj fields =>
        dsimp only
        cases h1 : validFilterField fields ("include") with
        | false =>
          rw [stringMapField_of_not_valid _ _ h1]
          simp [_parse_json, _is_valid_filter_structure, h1]
        | true =>
          cases h2 : validFilterField fields ("exclude") with
          | false =>
            rw [stringMapField_of_valid _ _ h1, stringMapField_of_not_valid _ _ h2]
            simp [_parse_json, _is_valid_filter_structure, h1, h2]
          | true =>
            rw [stringMapField_of_valid _ _ h1, stringMapField_of_valid _ _ h2]
            simp [_parse_json, _is_valid_filter_structure, h1, h2]
      | null => rfl
      | bool b => rfl
      | num q => rfl
      | str s => rfl
      | arr elems => rfl

/-- Witness for `get_resource_group_tag_filters_spec`: a well-formed
configuration with one include entry parses to exactly that map. -/
theorem get_resource_group_tag_filters_spec_witness :
    get_resource_group_tag_filters (some ("cfg"))
        (fun s => if s = "cfg"
          then some (JsonValue.obj
            [("include", JsonValue.obj [("Environment", JsonValue.str "Production")])])
          else none) =
      tagFiltersParseSpec ("cfg")
        (fun s => if s = "cfg"
          then some (JsonValue.obj
            [("include", JsonValue.obj [("Environment", JsonValue.str "Production")])])
          else none) ∧
      get_resource_group_tag_filters (some ("cfg"))
        (fun s => if s = "cfg"
          then some (JsonValue.obj
            [("include", JsonValue.obj [("Environment", JsonValue.str "Production")])])
          else none) = ⟨[("Environment", "Production")], []⟩ :=
  ⟨get_resource_group_tag_filters_spec _ _ (by simp), by rfl⟩

/-- The `jsonLoads` result of the counterexample configuration: an object
whose include field is JSON null and whose exclude field is a string map. -/
def cxFilterFields : List (String × JsonValue) :=
  [("include", JsonValue.null), ("exclude", JsonValue.obj [("Temporary", JsonValue.str "true")])]

def cxJsonLoads : String → Option JsonValue :=
  fun s => if s = "cfg" then some (JsonValue.obj cxFilterFields) else none

/-- C9 counterexample: for a configuration whose include field is JSON null
— a field that is present yet is not a string-to-string mapping — the claim
requires the empty TagFilterSet, but the code returns the exclude map:
Python's `dict.get` cannot distinguish a null field from an absent one, so
validation skips it and the parse keeps the exclude filters. -/
theorem get_resource_group_tag_filters_cx :
    cxFilterFields.lookup ("include") = some JsonValue.null ∧
      get_resource_group_tag_filters (some ("cfg")) cxJsonLoads =
        ⟨[], [("Temporary", "true")]⟩ ∧
      (⟨[], [("Temporary", "true")]⟩ : ResourceGroupTagFilters) ≠ ⟨[], []⟩ :=
  ⟨rfl, rfl, by decide⟩

/-! ## Paginated query runner (`src/azure/src/clients/azure_client.py`) -/

/-- The value held by the `query` variable of `AzureClient.run_query`: the
original query text, or — because each loop iteration rebinds the variable —
a `QueryRequest` object wrapping the previous value together with the
subscriptions and the current skip token. -/
inductive QueryArg where
  | text (s : String)
  | queryRequest (subscriptions : List String) (query : QueryArg) (skip_token : Option String)
  deriving Repr, DecidableEq

/-- One response of the resource graph collaborator. -/
structure QueryResponse where
  data : List AzureResourceQueryData
  skip_token : Option String
  deriving Repr, DecidableEq

/-- Python truthiness of `skip_token`: `None` and the empty string are falsy. -/
def falsyToken : Option String → Bool
  | none => true
  | some s => s.isEmpty

/-- Observable events of one `run_query` execution. -/
inductive RunEvent where
  | consumeEv (n : Int) (ok : Bool)
  | sleepEv (seconds : ℕ)
  | callEv (request : QueryArg)
  | yieldEv (page : List AzureResourceQueryData)
  deriving Repr, DecidableEq

/-- `AzureClient._handle_rate_limit`: a single one-second sleep when the
consume was rejected; the consume is not re-attempted. -/
def _handle_rate_limit (success : Bool) : List RunEvent :=
  if !success then [RunEvent.sleepEv 1] else []

/-- `AzureClient.run_query`, driven by the list of responses the collaborator
returns on successive calls, each paired with the time of that loop
iteration.  Faithful to the source: each iteration rebinds `query` to the
freshly built `QueryRequest`, consults the limiter once through
`_handle_rate_limit`, always issues the call, yields the page, and stops
when the returned skip token is falsy. -/
def run_query (query : QueryArg) (subscriptions : List String)
    (lim : TokenBucketRateLimiter) :
    List (QueryResponse × ℚ) → Option String → List RunEvent
  | [], _ => []
  | (resp, now) :: rest, skip_token =>
    let query2 := QueryArg.queryRequest subscriptions query skip_token
    let r := lim.consume 1 now
    let evs := RunEvent.consumeEv 1 r.1 :: (_handle_rate_limit r.1 ++
      [RunEvent.callEv query2, RunEvent.yieldEv resp.data])
    if falsyToken resp.skip_token then evs
    else evs ++ run_query query2 subscriptions r.2 rest resp.skip_token

/-- The requests issued during a run, in call order. -/
def traceCalls (evs : List RunEvent) : List QueryArg :=
  evs.filterMap (fun e => match e with | RunEvent.callEv r => some r | _ => none)

/-- Trace grammar of the pacing behavior (C7 amended): each remote call is
preceded by exactly one `consume(1)`; an admitted consume is followed
directly by the call, a rejected one by a single one-second sleep and then
by the same pending call anyway — the call is not gated on admission and the
cursor does not advance on a rejection. -/
inductive PacedTrace : List RunEvent → Prop
  | nil : PacedTrace []
  | admitted (req : QueryArg) (page : List AzureResourceQueryData) (rest : List RunEvent) :
      PacedTrace rest →
      PacedTrace (RunEvent.consumeEv 1 true :: RunEvent.callEv req ::
        RunEvent.yieldEv page :: rest)
  | rejected (req : QueryArg) (page : List AzureResourceQueryData) (rest : List RunEvent) :
      PacedTrace rest →
      PacedTrace (RunEvent.consumeEv 1 false :: RunEvent.sleepEv 1 ::
        RunEvent.callEv req :: RunEvent.yieldEv page :: rest)

/-- C7 (amended): every `run_query` trace consists of per-call blocks in
which the single `consume(1)` precedes the call; a rejected consume is
followed by one one-second sleep and then the call is issued anyway, without
re-attempting the consume. -/
theorem run_query_paced (backend : List (QueryResponse × ℚ)) (query : QueryArg)
    (subscriptions : List String) (lim : TokenBucketRateLimiter)
    (skip_token : Option String) :
    PacedTrace (run_query query subscriptions lim backend skip_token) := by
  induction backend generalizing query lim skip_token with
  | nil => exact PacedTrace.nil
  | cons hd rest ih =>
    obtain ⟨resp, now⟩ := hd
    rw [run_query]
    cases hok : (lim.consume 1 now).1 <;>
      cases hf : falsyToken resp.skip_token <;>
      simp only [_handle_rate_limit, Bool.not_true, Bool.not_false, if_true, if_false,
        List.cons_append, List.nil_append, List.singleton_append, List.append_nil,
        Bool.false_eq_true, ite_true, ite_false, reduceIte]
    · exact PacedTrace.rejected _ _ _ (ih _ _ _)
    · exact PacedTrace.rejected _ _ _ PacedTrace.nil
    · exact PacedTrace.admitted _ _ _ (ih _ _ _)
    · exact PacedTrace.admitted _ _ _ PacedTrace.nil

/-- The limiter as constructed in `AzureClient.__init__`:
`TokenBucketRateLimiter(capacity=250, refill_rate=25)` (full bucket), here
taken at construction time 0. -/
def azureLimiter : TokenBucketRateLimiter :=
  { capacity := 250, refill_rate := 25, tokens := 250, last_refill_time := 0 }

/-- An exhausted limiter that rejects `consume(1)`: zero capacity and zero
refill rate. -/
def emptyLimiter : TokenBucketRateLimiter :=
  { capacity := 0, refill_rate := 0, tokens := 0, last_refill_time := 0 }

/-- `consume(1)` on the exhausted limiter is rejected and leaves the state
unchanged. -/
theorem emptyLimiter_consume : emptyLimiter.consume 1 0 = (false, emptyLimiter) := by
  unfold TokenBucketRateLimiter.consume emptyLimiter
  norm_num

/-- C7 counterexample: with a limiter that rejects `consume(1)`, `run_query`
sleeps one second and then issues the remote call anyway — the trace contains
a call but no admitted consume, so the remote call is issued on the strength
of a rejected consume, and the consume is never re-attempted. -/
theorem run_query_rejected_call_cx :
    run_query (QueryArg.text ("Q")) [("sub-1" : String)] emptyLimiter
        [({ data := [], skip_token := none }, 0)] none =
      [RunEvent.consumeEv 1 false, RunEvent.sleepEv 1,
        RunEvent.callEv (QueryArg.queryRequest [("sub-1" : String)] (QueryArg.text ("Q")) none),
        RunEvent.yieldEv []] ∧
      (∀ e ∈ run_query (QueryArg.text ("Q")) [("sub-1" : String)] emptyLimiter
          [({ data := [], skip_token := none }, 0)] none,
        e ≠ RunEvent.consumeEv 1 true) := by
  have htrace : run_query (QueryArg.text ("Q")) [("sub-1" : String)] emptyLimiter
      [({ data := [], skip_token := none }, 0)] none =
      [RunEvent.consumeEv 1 false, RunEvent.sleepEv 1,
        RunEvent.callEv (QueryArg.queryRequest [("sub-1" : String)] (QueryArg.text ("Q")) none),
        RunEvent.yieldEv []] := by
    rw [run_query]
    simp [emptyLimiter_consume, _handle_rate_limit, falsyToken]
  refine ⟨htrace, ?_⟩
  rw [htrace]
  decide

/-- C2: evaluation of `run_query` on a two-page backend (first response
carries skip token `"tok"`).  The first call sends the original query text
with an absent cursor; the second call carries the cursor `"tok"` from the
preceding response, but its query field holds the `QueryRequest` object
built for the first call — not the original query text — because the loop
rebinds the `query` variable.  The final conjunct records that this nested
value differs from the original query text, refuting the claim that every
subsequent call is made with the same original query text. -/
theorem run_query_rebinds_query_cx :
    traceCalls (run_query (QueryArg.text ("Q")) [("sub-1" : String)] emptyLimiter
        [({ data := [], skip_token := some ("tok") }, 0),
         ({ data := [], skip_token := none }, 0)] none) =
      [QueryArg.queryRequest [("sub-1" : String)] (QueryArg.text ("Q")) none,
        QueryArg.queryRequest [("sub-1" : String)]
          (QueryArg.queryRequest [("sub-1" : String)] (QueryArg.text ("Q")) none)
          (some ("tok"))] ∧
      QueryArg.queryRequest [("sub-1" : String)] (QueryArg.text ("Q")) none ≠
        QueryArg.text ("Q") := by
  have hft : falsyToken (some ("tok")) = false := rfl
  have htrace : run_query (QueryArg.text ("Q")) [("sub-1" : String)] emptyLimiter
      [({ data := [], skip_token := some ("tok") }, 0),
       ({ data := [], skip_token := none }, 0)] none =
      [RunEvent.consumeEv 1 false, RunEvent.sleepEv 1,
        RunEvent.callEv (QueryArg.queryRequest [("sub-1" : String)] (QueryArg.text ("Q")) none),
        RunEvent.yieldEv [],
        RunEvent.consumeEv 1 false, RunEvent.sleepEv 1,
        RunEvent.callEv (QueryArg.queryRequest [("sub-1" : String)]
          (QueryArg.queryRequest [("sub-1" : String)] (QueryArg.text ("Q")) none)
          (some ("tok"))),
        RunEvent.yieldEv []] := by
    rw [run_query]
    simp only [emptyLimiter_consume, hft]
    rw [run_query]
    simp [emptyLimiter_consume, _handle_rate_limit, falsyToken]
  refine ⟨?_, by decide⟩
  rw [htrace]
  rfl

/-! ## Webhook delivery (`src/integrations/azure_incremental/src/clients/port.py`) -/

/-- What one `http_client.post` call would do: raise a network error
(`httpx.HTTPError`), or return a response with the given HTTP status code. -/
inductive PostOutcome where
  | netError
  | response (status : ℕ)
  deriving Repr, DecidableEq

/-- How a `send_webhook_data` call ends for its caller: a normal return, or
a propagated exception. -/
inductive SendResult where
  | ok
  | raised
  deriving Repr, DecidableEq

/-- `PortClient.send_webhook_data`, driven by an oracle giving the outcome of
the k-th `post` call the HTTP collaborator would produce.  The body performs
a single `post` with no status inspection and no retry; the returned pair is
the number of post calls made and whether the call raised (a raised network
error propagates to the caller).  The semaphore bounds concurrency only and
is not modelled. -/
def send_webhook_data (collaborator : ℕ → PostOutcome) : ℕ × SendResult :=
  (1, match collaborator 0 with
      | PostOutcome.netError => SendResult.raised
      | PostOutcome.response _ => SendResult.ok)

/-- `PortClient._handle_error`: `response.raise_for_status()` raises an
`httpx.HTTPStatusError` for 4xx/5xx status codes, and `_handle_error`
re-raises it after logging. -/
def _handle_error (status : ℕ) : SendResult :=
  if 400 ≤ status then SendResult.raised else SendResult.ok

/-- A delivery collaborator that fails transiently on the first two post
calls and succeeds from the third on — the retry scenario of the claim. -/
def flakyTwiceCollaborator : ℕ → PostOutcome :=
  fun k => if k < 2 then PostOutcome.netError else PostOutcome.response 200

/-- C3: evaluation of `send_webhook_data` on a collaborator that fails
transiently twice and then succeeds.  The code performs exactly one post
call and the error propagates to the caller — there is no retry loop, no
1-second delay, and no drop-after-retries; the claim (and the repository's
own tests `test_send_webhook_data_with_retries` and
`test_send_webhook_data_max_retries_exceeded`) require 3 calls and a normal
return. -/
theorem send_webhook_data_no_retry :
    send_webhook_data flakyTwiceCollaborator = (1, SendResult.raised) ∧
      send_webhook_data (fun _ => PostOutcome.netError) = (1, SendResult.raised) := by
  constructor
  · rfl
  · rfl

/-- C10: `send_webhook_data` never inspects the response status: for every
response — error status or not — it makes one post call and returns
normally, identically to a 200 response; `_handle_error`, which would raise
on such a status, is never reached on this path. -/
theorem send_webhook_data_ignores_status (status : ℕ) (h : 400 ≤ status) :
    send_webhook_data (fun _ => PostOutcome.response status) = (1, SendResult.ok) ∧
      send_webhook_data (fun _ => PostOutcome.response status) =
        send_webhook_data (fun _ => PostOutcome.response 200) ∧
      _handle_error status = SendResult.raised := by
  refine ⟨rfl, rfl, ?_⟩
  unfold _handle_error
  rw [if_pos h]

/-- Witness for `send_webhook_data_ignores_status` at a 500 response. -/
theorem send_webhook_data_ignores_status_witness :
    send_webhook_data (fun _ => PostOutcome.response 500) = (1, SendResult.ok) ∧
      send_webhook_data (fun _ => PostOutcome.response 500) =
        send_webhook_data (fun _ => PostOutcome.response 200) ∧
      _handle_error 500 = SendResult.raised :=
  send_webhook_data_ignores_status 500 (by norm_num)

/-- A record whose `changeType` is Delete, for the classification witness. -/
def delRecord : AzureResourceQueryData :=
  { subscriptionId := "s1", resourceGroup := "g1", resourceId := "id-del",
    name := "a", type := "t", location := "l",
    changeType := "Delete", changeTime := "0" }

/-- A record whose `changeType` is Create, for the classification witness. -/
def createRecord : AzureResourceQueryData :=
  { subscriptionId := "s1", resourceGroup := "g1", resourceId := "id-new",
    name := "b", type := "t", location := "l",
    changeType := "Create", changeTime := "1" }

/-- Witness for `sync_tasks_classification`: a page with one Delete record
and one Create record yields one delete task and one upsert task, matched by
resourceId. -/
theorem sync_tasks_classification_witness :
    List.Forall₂
      (fun item t =>
        (t.operation = "delete" ↔ item.changeType = "Delete") ∧
          (t.operation = "delete" ∨ t.operation = "upsert") ∧
          t.id = item.resourceId)
      [delRecord, createRecord]
      (sync_incremental_tasks [delRecord, createRecord]) ∧
      ∀ t ∈ sync_full_tasks [delRecord, createRecord], t.operation = "upsert" :=
  sync_tasks_classification [delRecord, createRecord]
